import Mathlib

/-!
Verification development for the Kaleidoscope-style REPL compiler in
src/src/lexer.cpp.  The C++ program is shallowly embedded below:

* the lexer (gettok, lines 75-150) as a pure function over a character
  stream, where the stream is a list of characters whose head plays the
  role of the one look-behind character LastChar and whose end models EOF;
* the operator-precedence table (a std::map from char to int, line 154)
  as an association list, with operator-bracket access modelled exactly
  (absent keys are inserted with value 0, as std::map::operator[] does);
* the recursive-descent parser (lines 593-889) as fuelled functions over
  a token list threading the mutable table and the stderr error lines;
* the code generator (the codegen methods, lines 176-533 and 891-925) as
  state-passing functions over a CGState that mirrors the process-wide
  globals NamedValues, TheModule, FunctionProtos, and the emitted
  instruction stream; values are LLVM Value handles (constants,
  arguments, instruction results); C++ functions that return a null
  pointer are modelled by an Option result, and executions that would
  dereference a null pointer or fail an assert are a distinct fatal
  outcome, since the process dies rather than reporting an error line;
* the control-flow graph emitted for a For expression (lines 354-408) as
  an executable loop semantics, with doubles modelled by rationals
  (exact for the small integer values exercised here).

Doubles are modelled by the rationals; every concrete value used in the
theorems is a small integer on which IEEE-754 double arithmetic is exact.
-/

namespace Kls

/-! ### Association-list maps (std::map semantics: unique keys) -/

def alookup {α β : Type} [DecidableEq α] (k : α) : List (α × β) → Option β
  | [] => none
  | (k0, v) :: r => if k0 = k then some v else alookup k r

/-- insert-or-assign, as both std::map::operator[]-assignment and
map[k] = v in the C++ source behave. -/
def assocSet {α β : Type} [DecidableEq α] (k : α) (v : β) : List (α × β) → List (α × β)
  | [] => [(k, v)]
  | (k0, v0) :: r => if k0 = k then (k0, v) :: r else (k0, v0) :: assocSet k v r

/-- std::map::erase by key. -/
def assocErase {α β : Type} [DecidableEq α] (k : α) : List (α × β) → List (α × β)
  | [] => []
  | (k0, v0) :: r => if k0 = k then r else (k0, v0) :: assocErase k r

/-- The keys of an association list are pairwise distinct (always true
of a std::map; stated as a hypothesis where a theorem needs it). -/
def keysNodup {α β : Type} (l : List (α × β)) : Prop := (l.map Prod.fst).Nodup

/-! ### Lexer (gettok, lines 75-150)

The character source is a list; the empty list is end-of-stream (EOF).
The static look-behind LastChar is the head of the list (gettok is first
called with LastChar = a space, i.e. with a space consed onto the real
input).  gettok loops back to the top after a comment and after skipping
whitespace; that loop is factored into stripCW below: the classification
code after stripCW can only see a head character that is neither
whitespace nor the comment character. -/

/-- C isspace in the default locale: space, \t, \n, \v, \f, \r. -/
def cIsSpace (c : Char) : Bool :=
  c = ' ' || c = '\t' || c = '\n' || c = '\x0b' || c = '\x0c' || c = '\r'

/-- The comment loop (lines 133-136): consume characters until EOF, \n
or \r; the terminator stays in LastChar, i.e. at the head of the
returned stream. -/
def skipComment : List Char → List Char
  | [] => []
  | c :: r => if c = '\n' ∨ c = '\r' then c :: r else skipComment r

theorem skipComment_length_le (l : List Char) : (skipComment l).length ≤ l.length := by
  induction l with
  | nil => simp [skipComment]
  | cons c r ih =>
    simp only [skipComment]
    split
    · simp
    · exact Nat.le_succ_of_le ih

/-- The whitespace loop (lines 78-79) fused with the comment-restart
(lines 128-141): skip spaces; on a # skip the comment and start over.
gettok reaches its classification code exactly on the result of this. -/
def stripCW (input : List Char) : List Char :=
  match input with
  | [] => []
  | c :: r =>
    if cIsSpace c then stripCW r
    else if c = '#' then stripCW (skipComment r)
    else c :: r
termination_by input.length
decreasing_by
  · simp
  · have := skipComment_length_le r
    simp
    omega

/-- The identifier loop (line 83): consume the maximal isalnum run. -/
def readIdentAux : List Char → List Char × List Char
  | [] => ([], [])
  | c :: r =>
    if c.isAlphanum then
      let p := readIdentAux r
      (c :: p.1, p.2)
    else ([], c :: r)

/-- The number loop (lines 116-120): consume the maximal [0-9.] run. -/
def readNumAux : List Char → List Char × List Char
  | [] => ([], [])
  | c :: r =>
    if c.isDigit ∨ c = '.' then
      let p := readNumAux r
      (c :: p.1, p.2)
    else ([], c :: r)

/-- Lexer tokens.  tnum carries the raw consumed text (the source stores
strtod(NumStr) in the global NumVal; no claim depends on the numeric
value, only on which characters form a number token).  text is the
keyword token for external declarations. -/
inductive LTok where
  | teof
  | tdef
  | text
  | tif
  | tthen
  | telse
  | tfor
  | tin
  | tbinary
  | tunary
  | tvar
  | tident (s : String)
  | tnum (raw : String)
  | top (c : Char)
  deriving DecidableEq, Repr

/-- The keyword dispatch chain (lines 90-110). -/
def keywordOf (s : String) : LTok :=
  if s = "def" then .tdef
  else if s = "extern" then .text
  else if s = "if" then .tif
  else if s = "then" then .tthen
  else if s = "else" then .telse
  else if s = "for" then .tfor
  else if s = "in" then .tin
  else if s = "binary" then .tbinary
  else if s = "unary" then .tunary
  else if s = "var" then .tvar
  else .tident s

/-- The reserved words of the language (spec section 3). -/
def reservedWords : List String :=
  ["def", "extern", "if", "then", "else", "for", "in", "binary", "unary", "var"]

/-- One call to gettok: returns the token and the rest of the stream
(look-behind character at its head).  EOF inside or after a comment
yields tok_eof, matching lines 137-143. -/
def nextTok (input : List Char) : LTok × List Char :=
  match stripCW input with
  | [] => (.teof, [])
  | c :: r =>
    if c.isAlpha then
      let p := readIdentAux r
      (keywordOf (String.mk (c :: p.1)), p.2)
    else if c.isDigit ∨ c = '.' then
      let p := readNumAux r
      (.tnum (String.mk (c :: p.1)), p.2)
    else (.top c, r)

/-! ### Operator table (BinopPrecedence, line 154; GetTokPrecedence, lines 565-573) -/

/-- Parser tokens.  Keywords are the negative enum values, an operator
token carries the character code (CurTok for any other input byte).
Number tokens carry NumVal. -/
inductive Token where
  | teof
  | kdef
  | kext
  | kif
  | kthen
  | kelse
  | kfor
  | kin
  | kbinary
  | kunary
  | kvar
  | identifier (s : String)
  | number (v : ℚ)
  | op (c : Char)
  deriving DecidableEq, Repr

/-- BinopPrecedence[c]: std::map::operator[] returns the mapped value,
inserting a value-initialized (zero) entry when the key is absent. -/
def mapIndex (t : List (Char × Int)) (c : Char) : Int × List (Char × Int) :=
  match alookup c t with
  | some v => (v, t)
  | none => (0, assocSet c 0 t)

/-- GetTokPrecedence (lines 565-573): -1 for a non-ascii CurTok (all
keyword/identifier/number tokens are negative enum values, hence not
ascii), otherwise the table entry via operator[], with entries <= 0
reported as -1. -/
def getTokPrecedence (t : Token) (tbl : List (Char × Int)) : Int × List (Char × Int) :=
  match t with
  | .op c =>
    let p := mapIndex tbl c
    if p.1 ≤ 0 then (-1, p.2) else (p.1, p.2)
  | _ => (-1, tbl)

/-- The seeding in main (lines 1064-1068). -/
def seededTable : List (Char × Int) := [('=', 2), ('<', 10), ('+', 20), ('-', 20), ('*', 40)]

/-! ### AST (the ExprAST class hierarchy, lines 163-518) -/

inductive Expr where
  | num (v : ℚ)
  | varRef (n : String)
  | unaryE (o : Char) (e : Expr)
  | binE (o : Char) (l r : Expr)
  | callE (callee : String) (args : List Expr)
  | ifE (c t e : Expr)
  | forE (v : String) (start endc : Expr) (step : Option Expr) (body : Expr)
  | varDecl (binds : List (String × Option Expr)) (body : Expr)
  deriving Repr

/-- PrototypeAST (lines 456-507): name, parameter names, operator flag,
binary precedence. -/
structure Proto where
  name : String
  args : List String
  isOperator : Bool
  precedence : Int
  deriving DecidableEq, Repr

def Proto.isBinaryOp (p : Proto) : Bool := p.isOperator && p.args.length == 2

/-- getOperatorName (lines 488-492): the last character of the
synthesized name. -/
def Proto.opChar (p : Proto) : Char := p.name.back

/-! ### Parser (lines 593-889)

The parser state holds the remaining tokens (CurTok is the head; the
empty list is tok_eof), the mutable precedence table, and the stderr
error lines.  Every parse function takes fuel; the C++ recursion always
terminates on finite input, and all theorems either supply ample fuel or
quantify over it. -/

structure PState where
  toks : List Token
  tbl : List (Char × Int)
  errs : List String
  deriving DecidableEq, Repr

def curT : List Token → Token
  | [] => .teof
  | t :: _ => t

/-- getNextToken. -/
def PState.adv (st : PState) : PState := { st with toks := st.toks.tail }

/-- LogError / LogErrorP (lines 575-585): one line to stderr. -/
def PState.logErr (st : PState) (m : String) : PState :=
  { st with errs := st.errs ++ ["Error: " ++ m] }

mutual

/-- ParseExpression (lines 739-745). -/
def parseExpression : Nat → PState → Option Expr × PState
  | 0, st => (none, st)
  | f+1, st =>
    match parseUnary f st with
    | (none, st1) => (none, st1)
    | (some lhs, st1) => parseBinOpRHS f 0 lhs st1

/-- ParseUnary (lines 704-713). -/
def parseUnary : Nat → PState → Option Expr × PState
  | 0, st => (none, st)
  | f+1, st =>
    match curT st.toks with
    | .op c =>
      if c = '(' ∨ c = ',' then parsePrimary f st
      else
        match parseUnary f st.adv with
        | (none, st1) => (none, st1)
        | (some e, st1) => (some (.unaryE c e), st1)
    | _ => parsePrimary f st

/-- ParseBinOpRHS (lines 715-737).  Note the recursion at line 731 uses
TokPrec + 1, the precedence of the operator just consumed. -/
def parseBinOpRHS : Nat → Int → Expr → PState → Option Expr × PState
  | 0, _, _, st => (none, st)
  | f+1, prec, lhs, st =>
    let q := getTokPrecedence (curT st.toks) st.tbl
    let st1 : PState := { st with tbl := q.2 }
    if q.1 < prec then (some lhs, st1)
    else
      match curT st1.toks with
      | .op binop =>
        let st2 := st1.adv
        match parseUnary f st2 with
        | (none, st3) => (none, st3)
        | (some rhs, st3) =>
          let q2 := getTokPrecedence (curT st3.toks) st3.tbl
          let st4 : PState := { st3 with tbl := q2.2 }
          if q.1 < q2.1 then
            match parseBinOpRHS f (q.1 + 1) rhs st4 with
            | (none, st5) => (none, st5)
            | (some rhs2, st5) => parseBinOpRHS f prec (.binE binop lhs rhs2) st5
          else parseBinOpRHS f prec (.binE binop lhs rhs) st4
      | _ => (some lhs, st1)

/-- ParsePrimary (lines 682-702). -/
def parsePrimary : Nat → PState → Option Expr × PState
  | 0, st => (none, st)
  | f+1, st =>
    match curT st.toks with
    | .identifier s => parseIdentExpr f s st
    | .number v => (some (.num v), st.adv)
    | .op '(' => parseParen f st
    | .kif => parseIf f st
    | .kfor => parseFor f st
    | .kvar => parseVar f st
    | _ => (none, st.logErr "Unknown token when expectinng an expression")

/-- ParseIdentifierExpr (lines 614-641). -/
def parseIdentExpr : Nat → String → PState → Option Expr × PState
  | 0, _, st => (none, st)
  | f+1, nm, st =>
    let st1 := st.adv
    if curT st1.toks = .op '(' then
      let st2 := st1.adv
      if curT st2.toks = .op ')' then (some (.callE nm []), st2.adv)
      else parseCallArgs f nm [] st2
    else (some (.varRef nm), st1)

/-- The argument loop of ParseIdentifierExpr (lines 625-637). -/
def parseCallArgs : Nat → String → List Expr → PState → Option Expr × PState
  | 0, _, _, st => (none, st)
  | f+1, nm, acc, st =>
    match parseExpression f st with
    | (none, st1) => (none, st1)
    | (some a, st1) =>
      let acc2 := acc ++ [a]
      if curT st1.toks = .op ')' then (some (.callE nm acc2), st1.adv)
      else if curT st1.toks = .op ',' then parseCallArgs f nm acc2 st1.adv
      else (none, st1.logErr "Expected \x27)\x27 or \x27,\x27 in argument list")

/-- ParseParenExpr (lines 602-612). -/
def parseParen : Nat → PState → Option Expr × PState
  | 0, st => (none, st)
  | f+1, st =>
    match parseExpression f st.adv with
    | (none, st1) => (none, st1)
    | (some v, st1) =>
      if curT st1.toks = .op ')' then (some v, st1.adv)
      else (none, st1.logErr "expected \x27)\x27")

/-- ParseIfExpr (lines 828-850). -/
def parseIf : Nat → PState → Option Expr × PState
  | 0, st => (none, st)
  | f+1, st =>
    match parseExpression f st.adv with
    | (none, st1) => (none, st1)
    | (some c, st1) =>
      if curT st1.toks = .kthen then
        match parseExpression f st1.adv with
        | (none, st2) => (none, st2)
        | (some t, st2) =>
          if curT st2.toks = .kelse then
            match parseExpression f st2.adv with
            | (none, st3) => (none, st3)
            | (some e, st3) => (some (.ifE c t e), st3)
          else (none, st2.logErr "expected else")
      else (none, st1.logErr "expected then")

/-- ParseForExpr (lines 852-889), up to the optional step. -/
def parseFor : Nat → PState → Option Expr × PState
  | 0, st => (none, st)
  | f+1, st =>
    let st1 := st.adv
    match curT st1.toks with
    | .identifier nm =>
      let st2 := st1.adv
      if curT st2.toks = .op '=' then
        match parseExpression f st2.adv with
        | (none, st3) => (none, st3)
        | (some s0, st3) =>
          if curT st3.toks = .op ',' then
            match parseExpression f st3.adv with
            | (none, st4) => (none, st4)
            | (some e0, st4) =>
              if curT st4.toks = .op ',' then
                match parseExpression f st4.adv with
                | (none, st5) => (none, st5)
                | (some sp, st5) => parseForTail f nm s0 e0 (some sp) st5
              else parseForTail f nm s0 e0 none st4
          else (none, st3.logErr "expected \x27,\x27 after for start value")
      else (none, st2.logErr "expected \x27=\x27 after for")
    | _ => (none, st1.logErr "expected identifier after for")

/-- ParseForExpr, after the optional step (lines 882-888). -/
def parseForTail : Nat → String → Expr → Expr → Option Expr → PState → Option Expr × PState
  | 0, _, _, _, _, st => (none, st)
  | f+1, nm, s0, e0, sp, st =>
    if curT st.toks = .kin then
      match parseExpression f st.adv with
      | (none, st1) => (none, st1)
      | (some b, st1) => (some (.forE nm s0 e0 sp b), st1)
    else (none, st.logErr "expected \x27in\x27 after for")

/-- ParseVarExpr (lines 646-680), entry. -/
def parseVar : Nat → PState → Option Expr × PState
  | 0, st => (none, st)
  | f+1, st =>
    let st1 := st.adv
    match curT st1.toks with
    | .identifier _ => parseVarList f [] st1
    | _ => (none, st1.logErr "expected identifier after var")

/-- The binding loop of ParseVarExpr (lines 654-672); CurTok is an
identifier on entry. -/
def parseVarList : Nat → List (String × Option Expr) → PState → Option Expr × PState
  | 0, _, st => (none, st)
  | f+1, acc, st =>
    match curT st.toks with
    | .identifier nm =>
      let st1 := st.adv
      if curT st1.toks = .op '=' then
        match parseExpression f st1.adv with
        | (none, st2) => (none, st2)
        | (some ini, st2) => parseVarCont f (acc ++ [(nm, some ini)]) st2
      else parseVarCont f (acc ++ [(nm, none)]) st1
    | _ => (none, st.logErr "expected identifier list after var")

/-- ParseVarExpr after one binding: comma continues the list, otherwise
the mandatory in-keyword and the body (lines 667-679). -/
def parseVarCont : Nat → List (String × Option Expr) → PState → Option Expr × PState
  | 0, _, st => (none, st)
  | f+1, acc, st =>
    if curT st.toks = .op ',' then
      let st1 := st.adv
      match curT st1.toks with
      | .identifier _ => parseVarList f acc st1
      | _ => (none, st1.logErr "expected identifier list after var")
    else
      if curT st.toks = .kin then
        match parseExpression f st.adv with
        | (none, st1) => (none, st1)
        | (some b, st1) => (some (.varDecl acc b), st1)
      else (none, st.logErr "expected \x27in\x27 keyword after \x27var\x27")

end

/-- The variant of ParseBinOpRHS that the specification describes:
identical to the source except that the inner recursion uses
minPrec + 1 instead of TokPrec + 1.  Defined only to be compared with
parseBinOpRHS; the comparison refutes the description in the spec. -/
def parseBinOpRHSSpec : Nat → Int → Expr → PState → Option Expr × PState
  | 0, _, _, st => (none, st)
  | f+1, prec, lhs, st =>
    let q := getTokPrecedence (curT st.toks) st.tbl
    let st1 : PState := { st with tbl := q.2 }
    if q.1 < prec then (some lhs, st1)
    else
      match curT st1.toks with
      | .op binop =>
        let st2 := st1.adv
        match parseUnary f st2 with
        | (none, st3) => (none, st3)
        | (some rhs, st3) =>
          let q2 := getTokPrecedence (curT st3.toks) st3.tbl
          let st4 : PState := { st3 with tbl := q2.2 }
          if q.1 < q2.1 then
            match parseBinOpRHSSpec f (prec + 1) rhs st4 with
            | (none, st5) => (none, st5)
            | (some rhs2, st5) => parseBinOpRHSSpec f prec (.binE binop lhs rhs2) st5
          else parseBinOpRHSSpec f prec (.binE binop lhs rhs) st4
      | _ => (some lhs, st1)

/-- ParseExpression built on the spec-described subroutine, for the
comparison in claim C6. -/
def parseExpressionSpec : Nat → PState → Option Expr × PState
  | 0, st => (none, st)
  | f+1, st =>
    match parseUnary f st with
    | (none, st1) => (none, st1)
    | (some lhs, st1) => parseBinOpRHSSpec f 0 lhs st1

/-- The argument-name loop of ParsePrototype (lines 791-792):
getNextToken first, collect identifiers. -/
def collectArgsAux : List Token → List String → List String × List Token
  | [], acc => (acc.reverse, [])
  | t :: r, acc =>
    match t with
    | .identifier s => collectArgsAux r (s :: acc)
    | _ => (acc.reverse, t :: r)

/-- The common tail of ParsePrototype (lines 788-798): the parenthesized
parameter list and the operand-count check. -/
def parseProtoTail (nm : String) (kind : Nat) (prec : Int) (st : PState) : Option Proto × PState :=
  if curT st.toks = .op '(' then
    let p := collectArgsAux st.toks.tail []
    let st1 : PState := { st with toks := p.2 }
    if curT st1.toks = .op ')' then
      let st2 := st1.adv
      if kind ≠ 0 ∧ p.1.length ≠ kind then
        (none, st2.logErr "Invalid number of operands for operator")
      else (some ⟨nm, p.1, kind ≠ 0, prec⟩, st2)
    else (none, st1.logErr "Expected \x27)\x27 in prototype")
  else (none, st.logErr "Expected \x27(\x27 in prototype")

/-- ParsePrototype (lines 747-799).  The precedence literal is checked
against [1, 100] and truncated to unsigned ((unsigned)NumVal; floor
coincides with C truncation on the accepted range); when omitted it
stays at the initial 30. -/
def parsePrototype (st : PState) : Option Proto × PState :=
  match curT st.toks with
  | .identifier nm => parseProtoTail nm 0 30 st.adv
  | .kunary =>
    let st1 := st.adv
    match curT st1.toks with
    | .op c => parseProtoTail ("unary" ++ c.toString) 1 30 st1.adv
    | _ => (none, st1.logErr "Expected unary operator")
  | .kbinary =>
    let st1 := st.adv
    match curT st1.toks with
    | .op c =>
      let st2 := st1.adv
      match curT st2.toks with
      | .number v =>
        if v < 1 ∨ v > 100 then (none, st2.logErr "Invalid precedence: must be 1..100")
        else parseProtoTail ("binary" ++ c.toString) 2 ⌊v⌋ st2.adv
      | _ => parseProtoTail ("binary" ++ c.toString) 2 30 st2
    | _ => (none, st1.logErr "Expected binary operator")
  | _ => (none, st.logErr "Expected function name in prototype")

/-! ### Code generator state (the globals, lines 32-44, 154, 523)

NamedValues maps a name to an AllocaInst pointer; the pointer may be
null (std::map::operator[] inserts null for absent keys, and the Var
restore loop re-installs saved null pointers), so the map carries
Option Nat values, a none being a stored null pointer.  Functions in the
current module are identified by a fresh fid; Value handles are
constants, formal arguments, or instruction results. -/

inductive Val where
  | constFP (x : ℚ)
  | farg (i : Nat)
  | instr (id : Nat)
  deriving DecidableEq, Repr

inductive Instr where
  | allocaI (id : Nat) (nm : String)
  | storeI (v : Val) (target : Nat)
  | loadI (id : Nat) (src : Nat) (nm : String)
  | faddI (id : Nat) (l r : Val)
  | fsubI (id : Nat) (l r : Val)
  | fmulI (id : Nat) (l r : Val)
  | fcmpultI (id : Nat) (l r : Val)
  | uitofpI (id : Nat) (v : Val)
  | fcmponeI (id : Nat) (l r : Val)
  | brI
  | condbrI (c : Val)
  | phiI (id : Nat) (a b : Val)
  | callI (id : Nat) (callee : String) (args : List Val)
  | retI (v : Val)
  deriving DecidableEq, Repr

structure FnDecl where
  fid : Nat
  name : String
  argCount : Nat
  deriving DecidableEq, Repr

structure CGState where
  namedValues : List (String × Option Nat)
  nextId : Nat
  instrs : List Instr
  errors : List String
  moduleFns : List FnDecl
  protos : List (String × Proto)
  deriving DecidableEq, Repr

def cgInit : CGState := ⟨[], 0, [], [], [], []⟩

/-- LogErrorV (lines 587-591): one Error line to stderr, null result. -/
def CGState.logErr (s : CGState) (m : String) : CGState :=
  { s with errors := s.errors ++ ["Error: " ++ m] }

def CGState.emit (s : CGState) (i : Instr) : CGState :=
  { s with instrs := s.instrs ++ [i] }

def freshId (s : CGState) : Nat × CGState := (s.nextId, { s with nextId := s.nextId + 1 })

/-- NamedValues[n] read through operator[]: a missing key is inserted
with a value-initialized (null) pointer. -/
def nvGet (s : CGState) (n : String) : Option Nat × CGState :=
  match alookup n s.namedValues with
  | some a => (a, s)
  | none => (none, { s with namedValues := assocSet n (none : Option Nat) s.namedValues })

def nvSet (s : CGState) (n : String) (a : Option Nat) : CGState :=
  { s with namedValues := assocSet n a s.namedValues }

def nvErase (s : CGState) (n : String) : CGState :=
  { s with namedValues := assocErase n s.namedValues }

/-- CreateEntryBlockAlloca (lines 155-159). -/
def entryAlloca (s : CGState) (nm : String) : Nat × CGState :=
  let q := freshId s
  (q.1, q.2.emit (.allocaI q.1 nm))

/-- Function::Create renames the new function when the module already
has one of that name (LLVM appends a numeric suffix). -/
def freshNameAux (fns : List FnDecl) (base : String) : Nat → Nat → String
  | 0, k => base ++ "." ++ toString k
  | n+1, k =>
    let cand := base ++ "." ++ toString k
    if fns.all (fun f => f.name != cand) then cand else freshNameAux fns base n (k+1)

def freshName (fns : List FnDecl) (base : String) : String :=
  if fns.all (fun f => f.name != base) then base else freshNameAux fns base (fns.length + 1) 1

/-- PrototypeAST::codegen (lines 497-506): create a declaration with
external linkage in the current module; it never fails. -/
def protoCodegen (p : Proto) (s : CGState) : FnDecl × CGState :=
  let nm := freshName s.moduleFns p.name
  let f : FnDecl := ⟨s.nextId, nm, p.args.length⟩
  (f, { s with nextId := s.nextId + 1, moduleFns := s.moduleFns ++ [f] })

/-- getFunction (lines 525-533): current module first, then the
prototype registry, re-emitting the declaration on demand. -/
def getFunction (s : CGState) (nm : String) : Option FnDecl × CGState :=
  match s.moduleFns.find? (fun f => f.name == nm) with
  | some f => (some f, s)
  | none =>
    match alookup nm s.protos with
    | some p =>
      let q := protoCodegen p s
      (some q.1, q.2)
    | none => (none, s)

/-- Result of a codegen method.  ret none is a returned null Value*
(CodegenFailure); fatal is an execution the C++ program does not survive
(null-pointer dereference or a failed assert), distinguished because no
Error line and no null return happen there. -/
inductive CGRes (α : Type) where
  | fatal (msg : String) (s : CGState)
  | ret (v : Option α) (s : CGState)
  deriving Repr

/-- The loop tail of ForExprAST::codegen (lines 390-405): reload the
cell, add the step, store, compare the end condition against 0.0,
conditional branch, and restore or erase the shadowed binding. -/
def forWind (vn : String) (cell : Nat) (old : Option Nat) (stv ev : Val) (s : CGState) : CGState :=
  let q := freshId s
  let s1 := q.2.emit (.loadI q.1 cell vn)
  let q2 := freshId s1
  let s2 := q2.2.emit (.faddI q2.1 (.instr q.1) stv)
  let s3 := s2.emit (.storeI (.instr q2.1) cell)
  let q3 := freshId s3
  let s4 := q3.2.emit (.fcmponeI q3.1 ev (.constFP 0))
  let s5 := s4.emit (.condbrI (.instr q3.1))
  match old with
  | some o => nvSet s5 vn (some o)
  | none => nvErase s5 vn

/-- The restore loop of VarExprAST::codegen (lines 450-451): re-assign
each saved binding, including saved null pointers. -/
def nvRestore (names : List String) (olds : List (Option Nat)) (s : CGState) : CGState :=
  match names, olds with
  | n :: ns, o :: os => nvRestore ns os (nvSet s n o)
  | _, _ => s

mutual

/-- ExprAST::codegen, dispatched over the node kinds (the virtual
codegen methods, lines 176-453). -/
def codegen : Nat → Expr → CGState → CGRes Val
  | 0, _, s => .ret none s
  | f+1, e, s =>
    match e with
    | .num v =>
      -- NumberExprAST::codegen (lines 176-179)
      .ret (some (.constFP v)) s
    | .varRef n =>
      -- VariableExprAST::codegen (lines 188-194): on an unbound name the
      -- error is logged but NOT returned (the return keyword is missing at
      -- line 192), so CreateLoad dereferences the null AllocaInst.
      let p := nvGet s n
      match p.1 with
      | none => .fatal "null AllocaInst dereferenced in CreateLoad" (p.2.logErr "Unknown variable name")
      | some a =>
        let q := freshId p.2
        .ret (some (.instr q.1)) (q.2.emit (.loadI q.1 a n))
    | .unaryE c o =>
      -- UnaryExprAST::codegen (lines 210-219)
      match codegen f o s with
      | .fatal m s1 => .fatal m s1
      | .ret none s1 => .ret none s1
      | .ret (some v) s1 =>
        let g := getFunction s1 ("unary" ++ c.toString)
        match g.1 with
        | none => .ret none (g.2.logErr "Unknown unary operator")
        | some fd =>
          let q := freshId g.2
          .ret (some (.instr q.1)) (q.2.emit (.callI q.1 fd.name [v]))
    | .binE c l r =>
      -- BinaryExprAST::codegen (lines 230-271)
      if c = '=' then
        match l with
        | .varRef n =>
          match codegen f r s with
          | .fatal m s1 => .fatal m s1
          | .ret none s1 => .ret none s1
          | .ret (some v) s1 =>
            let p := nvGet s1 n
            match p.1 with
            | none => .ret none (p.2.logErr "Unknown variable name")
            | some a => .ret (some v) (p.2.emit (.storeI v a))
        | _ =>
          -- the unchecked static_cast at line 234 never yields null, so the
          -- guard at 235 cannot fire; the RHS is lowered, then getName() is
          -- invoked on an object of the wrong dynamic type
          match codegen f r s with
          | .fatal m s1 => .fatal m s1
          | .ret none s1 => .ret none s1
          | .ret (some _) s1 => .fatal "undefined behavior: bad static_cast in assignment" s1
      else
        match codegen f l s with
        | .fatal m s1 => .fatal m s1
        | .ret lv s1 =>
          match codegen f r s1 with
          | .fatal m s2 => .fatal m s2
          | .ret rv s2 =>
            match lv, rv with
            | some lval, some rval =>
              if c = '+' then
                let q := freshId s2
                .ret (some (.instr q.1)) (q.2.emit (.faddI q.1 lval rval))
              else if c = '-' then
                let q := freshId s2
                .ret (some (.instr q.1)) (q.2.emit (.fsubI q.1 lval rval))
              else if c = '*' then
                let q := freshId s2
                .ret (some (.instr q.1)) (q.2.emit (.fmulI q.1 lval rval))
              else if c = '<' then
                let q := freshId s2
                let s3 := q.2.emit (.fcmpultI q.1 lval rval)
                let q2 := freshId s3
                .ret (some (.instr q2.1)) (q2.2.emit (.uitofpI q2.1 (.instr q.1)))
              else
                -- the user-operator path (lines 266-270): assert(F), no
                -- LogErrorV; an unresolvable operator aborts the process
                let g := getFunction s2 ("binary" ++ c.toString)
                match g.1 with
                | none => .fatal "assertion failed: binary operator not found!" g.2
                | some fd =>
                  let q := freshId g.2
                  .ret (some (.instr q.1)) (q.2.emit (.callI q.1 fd.name [lval, rval]))
            | _, _ => .ret none s2
    | .callE nm args =>
      -- CallExprAST::codegen (lines 281-296)
      let g := getFunction s nm
      match g.1 with
      | none => .ret none (g.2.logErr "Unknown function referenced")
      | some fd =>
        if fd.argCount ≠ args.length then .ret none (g.2.logErr "Incorrect # arguments passed")
        else
          match codegenList f args g.2 with
          | .fatal m s1 => .fatal m s1
          | .ret none s1 => .ret none s1
          | .ret (some vs) s1 =>
            let q := freshId s1
            .ret (some (.instr q.1)) (q.2.emit (.callI q.1 fd.name vs))
    | .ifE c t el =>
      -- IfExprAST::codegen (lines 306-340); basic-block bookkeeping is
      -- abstracted to the emitted instruction trace
      match codegen f c s with
      | .fatal m s1 => .fatal m s1
      | .ret none s1 => .ret none s1
      | .ret (some cv) s1 =>
        let q := freshId s1
        let s2 := (q.2.emit (.fcmponeI q.1 cv (.constFP 0))).emit (.condbrI (.instr q.1))
        match codegen f t s2 with
        | .fatal m s3 => .fatal m s3
        | .ret none s3 => .ret none s3
        | .ret (some tv) s3 =>
          let s4 := s3.emit .brI
          match codegen f el s4 with
          | .fatal m s5 => .fatal m s5
          | .ret none s5 => .ret none s5
          | .ret (some ev) s5 =>
            let s6 := s5.emit .brI
            let q2 := freshId s6
            .ret (some (.instr q2.1)) (q2.2.emit (.phiI q2.1 tv ev))
    | .forE vn st0 en stp bd =>
      -- ForExprAST::codegen (lines 354-408)
      let a := entryAlloca s vn
      match codegen f st0 a.2 with
      | .fatal m s1 => .fatal m s1
      | .ret none s1 => .ret none s1
      | .ret (some sv) s1 =>
        let s2 := (s1.emit (.storeI sv a.1)).emit .brI
        let p := nvGet s2 vn
        let s3 := nvSet p.2 vn (some a.1)
        match codegen f bd s3 with
        | .fatal m s4 => .fatal m s4
        | .ret none s4 => .ret none s4
        | .ret (some _) s4 =>
          match stp with
          | some se =>
            match codegen f se s4 with
            | .fatal m s5 => .fatal m s5
            | .ret none s5 => .ret none s5
            | .ret (some stv) s5 =>
              match codegen f en s5 with
              | .fatal m s6 => .fatal m s6
              | .ret none s6 => .ret none s6
              | .ret (some ev) s6 => .ret (some (.constFP 0)) (forWind vn a.1 p.1 stv ev s6)
          | none =>
            match codegen f en s4 with
            | .fatal m s6 => .fatal m s6
            | .ret none s6 => .ret none s6
            | .ret (some ev) s6 => .ret (some (.constFP 0)) (forWind vn a.1 p.1 (.constFP 1) ev s6)
    | .varDecl binds bd =>
      -- VarExprAST::codegen (lines 421-453)
      match codegenVars f binds s with
      | .fatal m s1 => .fatal m s1
      | .ret none s1 => .ret none s1
      | .ret (some olds) s1 =>
        match codegen f bd s1 with
        | .fatal m s2 => .fatal m s2
        | .ret none s2 => .ret none s2
        | .ret (some bv) s2 => .ret (some bv) (nvRestore (binds.map Prod.fst) olds s2)

/-- The argument loop of CallExprAST::codegen (lines 289-294). -/
def codegenList : Nat → List Expr → CGState → CGRes (List Val)
  | 0, _, s => .ret none s
  | _+1, [], s => .ret (some []) s
  | f+1, e :: rest, s =>
    match codegen f e s with
    | .fatal m s1 => .fatal m s1
    | .ret none s1 => .ret none s1
    | .ret (some v) s1 =>
      match codegenList f rest s1 with
      | .fatal m s2 => .fatal m s2
      | .ret none s2 => .ret none s2
      | .ret (some vs) s2 => .ret (some (v :: vs)) s2

/-- The binding loop of VarExprAST::codegen (lines 426-445), returning
the saved OldBindings.  Line 434 reads `if (InitVal) return nullptr;`:
a successfully lowered initializer aborts the whole Var codegen with a
null result, and a failed initializer falls through with InitVal still
null, which CreateStore then dereferences.  An absent initializer uses
the 0.0 default (built from APFloat(0.0f), a 32-bit float constant). -/
def codegenVars : Nat → List (String × Option Expr) → CGState → CGRes (List (Option Nat))
  | 0, _, s => .ret none s
  | _+1, [], s => .ret (some []) s
  | f+1, (nm, ini) :: rest, s =>
    match ini with
    | some ie =>
      match codegen f ie s with
      | .fatal m s1 => .fatal m s1
      | .ret (some _) s1 => .ret none s1
      | .ret none s1 =>
        let a := entryAlloca s1 nm
        .fatal "null Value dereferenced in CreateStore" a.2
    | none =>
      let v : Val := .constFP 0
      let a := entryAlloca s nm
      let s2 := a.2.emit (.storeI v a.1)
      let p := nvGet s2 nm
      let s3 := nvSet p.2 nm (some a.1)
      match codegenVars f rest s3 with
      | .fatal m s4 => .fatal m s4
      | .ret none s4 => .ret none s4
      | .ret (some olds) s4 => .ret (some (p.1 :: olds)) s4

end

/-- The parameter setup of FunctionAST::codegen (lines 904-909): one
stack cell per parameter, store the incoming argument, bind the name.
(The argument names are taken from the prototype, which is where
PrototypeAST::codegen put them.) -/
def argsSetup : List String → Nat → CGState → CGState
  | [], _, s => s
  | a :: rest, i, s =>
    let q := entryAlloca s a
    let s1 := q.2.emit (.storeI (.farg i) q.1)
    argsSetup rest (i+1) (nvSet s1 a (some q.1))

/-- Result of FunctionAST::codegen, carrying the operator table (which
only this function mutates on the codegen side). -/
inductive FnRes where
  | fatal (msg : String) (tbl : List (Char × Int)) (s : CGState)
  | ok (f : FnDecl) (tbl : List (Char × Int)) (s : CGState)
  | err (tbl : List (Char × Int)) (s : CGState)
  deriving Repr

/-- FunctionAST::codegen (lines 891-925): register the prototype, fetch
or create the function, install the precedence of a binary operator before
the body is lowered, clear NamedValues, set up the parameters, lower the
body; on success emit the return (verification and the function pass
manager have no observable effect here); on failure erase the function
from the module and remove the installed precedence entry. -/
def functionCodegen (fuel : Nat) (P : Proto) (body : Expr) (tbl : List (Char × Int))
    (s : CGState) : FnRes :=
  let s1 : CGState := { s with protos := assocSet P.name P s.protos }
  let g := getFunction s1 P.name
  match g.1 with
  | none => .err tbl g.2
  | some tf =>
    let tbl1 := if P.isBinaryOp then assocSet P.opChar P.precedence tbl else tbl
    let s3 := argsSetup P.args 0 { g.2 with namedValues := [] }
    match codegen fuel body s3 with
    | .fatal m s4 => .fatal m tbl1 s4
    | .ret (some v) s4 => .ok tf tbl1 (s4.emit (.retI v))
    | .ret none s4 =>
      let s5 : CGState := { s4 with moduleFns := s4.moduleFns.filter (fun gg => gg.fid != tf.fid) }
      let tbl2 := if P.isBinaryOp then assocErase P.opChar tbl1 else tbl1
      .err tbl2 s5

/-- HandleExtern (lines 978-992): PrototypeAST::codegen never fails, so
the declaration is always accepted and the registry entry is always
overwritten; no check compares the new arity with a previous
registration. -/
def handleExt (p : Proto) (s : CGState) : CGState :=
  let q := protoCodegen p s
  { q.2 with protos := assocSet p.name p q.2.protos }

/-! ### Execution of the emitted For loop (lines 354-408)

The control-flow graph emitted for a For expression is: entry stores the
start value into the cell; the loop block runs the body (its value is
discarded), evaluates the step (1.0 when absent), evaluates the end
condition at the CURRENT value of the cell, then reloads, adds the step,
stores, compares the end condition against 0.0 and branches back to the
loop block while it is non-zero.  forLoopExec executes that graph for a
loop where the only observable effect of the body is being run (a call such as
printd), counting body executions; the result value is the constant
0.0 the codegen returns.  Fuel bounds the iteration count. -/
def forLoopExec (endCond : ℚ → Bool) (stepV : ℚ) : Nat → ℚ → Nat → Option (Nat × ℚ)
  | 0, _, _ => none
  | f+1, i, cnt =>
    let cnt2 := cnt + 1
    let c := endCond i
    let i2 := i + stepV
    if c then forLoopExec endCond stepV f i2 cnt2 else some (cnt2, 0)

/-! ### Projections and concrete inputs used by the claim theorems -/

def CGRes.valOf {α : Type} : CGRes α → Option α
  | .fatal _ _ => none
  | .ret v _ => v

def CGRes.stateOf {α : Type} : CGRes α → CGState
  | .fatal _ s => s
  | .ret _ s => s

def CGRes.isFatal {α : Type} : CGRes α → Bool
  | .fatal _ _ => true
  | .ret _ _ => false

def FnRes.tblOf : FnRes → List (Char × Int)
  | .fatal _ t _ => t
  | .ok _ t _ => t
  | .err t _ => t

/-- Token stream of the input 4! (claim C3). -/
def pstBang : PState := ⟨[.number 4, .op '!'], seededTable, []⟩

/-- Token stream of the input a + b * c < d (claim C6). -/
def pstC6 : PState :=
  ⟨[.identifier "a", .op '+', .identifier "b", .op '*', .identifier "c", .op '<',
    .identifier "d"], seededTable, []⟩

/-- Token stream of the input for i = 1, i<5 in printd(i); (claim C7). -/
def pstC7 : PState :=
  ⟨[.kfor, .identifier "i", .op '=', .number 1, .op ',', .identifier "i", .op '<',
    .number 5, .kin, .identifier "printd", .op '(', .identifier "i", .op ')',
    .op ';'], seededTable, []⟩

/-- The first extern declaration f(x) of claim C5. -/
def protoF1 : Proto := ⟨"f", ["x"], false, 30⟩

/-- The re-declaration f(x y) of claim C5, with a different arity. -/
def protoF2 : Proto := ⟨"f", ["x", "y"], false, 30⟩

/-! ### Helper lemmas on association lists -/

theorem alookup_assocSet_self {α β : Type} [DecidableEq α] (k : α) (v : β) (t : List (α × β)) :
    alookup k (assocSet k v t) = some v := by
  induction t with
  | nil => simp [assocSet, alookup]
  | cons p r ih =>
    obtain ⟨k0, v0⟩ := p
    by_cases h : k0 = k
    · subst h
      simp [assocSet, alookup]
    · simp [assocSet, alookup, h, ih]

theorem alookup_assocSet_ne {α β : Type} [DecidableEq α] (k k2 : α) (v : β) (t : List (α × β))
    (h : k2 ≠ k) : alookup k2 (assocSet k v t) = alookup k2 t := by
  induction t with
  | nil =>
    simp [assocSet, alookup, Ne.symm h]
  | cons p r ih =>
    obtain ⟨k0, v0⟩ := p
    by_cases h0 : k0 = k
    · subst h0
      simp [assocSet, alookup, Ne.symm h]
    · simp [assocSet, alookup, h0, ih]

theorem alookup_eq_none_of_not_mem {α β : Type} [DecidableEq α] (k : α) (t : List (α × β))
    (h : k ∉ t.map Prod.fst) : alookup k t = none := by
  induction t with
  | nil => simp [alookup]
  | cons p r ih =>
    obtain ⟨k0, v0⟩ := p
    simp only [List.map_cons, List.mem_cons] at h
    push_neg at h
    simp [alookup, Ne.symm h.1, ih h.2]

theorem alookup_assocErase_assocSet {α β : Type} [DecidableEq α] (k : α) (v : β)
    (t : List (α × β)) (h : keysNodup t) : alookup k (assocErase k (assocSet k v t)) = none := by
  induction t with
  | nil => simp [assocSet, assocErase, alookup]
  | cons p r ih =>
    obtain ⟨k0, v0⟩ := p
    rw [keysNodup, List.map_cons, List.nodup_cons] at h
    by_cases h0 : k0 = k
    · subst h0
      simp only [assocSet, assocErase, if_pos rfl]
      exact alookup_eq_none_of_not_mem k0 r h.1
    · simp only [assocSet, assocErase, if_neg h0, alookup, if_neg h0]
      exact ih h.2

theorem mem_assocSet {α β : Type} [DecidableEq α] (k : α) (v : β) (t : List (α × β))
    (p : α × β) (h : p ∈ assocSet k v t) : p = (k, v) ∨ p ∈ t := by
  induction t with
  | nil =>
    simp only [assocSet, List.mem_singleton] at h
    exact Or.inl h
  | cons q r ih =>
    obtain ⟨k0, v0⟩ := q
    by_cases h0 : k0 = k
    · subst h0
      have he : assocSet k0 v ((k0, v0) :: r) = (k0, v) :: r := by simp [assocSet]
      rw [he] at h
      rcases List.mem_cons.mp h with h1 | h1
      · exact Or.inl h1
      · exact Or.inr (List.mem_cons_of_mem _ h1)
    · have he : assocSet k v ((k0, v0) :: r) = (k0, v0) :: assocSet k v r := by
        simp [assocSet, h0]
      rw [he] at h
      rcases List.mem_cons.mp h with h1 | h1
      · exact Or.inr (by simp [h1])
      · rcases ih h1 with h2 | h2
        · exact Or.inl h2
        · exact Or.inr (List.mem_cons_of_mem _ h2)

/-! ### Claim C1: Var lowering (code bug: the inverted initializer check) -/

/-- Claim C1.  The spec says a Var binding lowers its initializer, stores
it into a fresh stack cell and installs the binding, the expression
evaluating to its body.  The code inverts the null check on the lowered
initializer (line 434: if (InitVal) return nullptr;), so lowering
var x = 1 in x fails with a null result, never allocating, storing or
binding anything: the state is returned unchanged (no instruction, no
binding, no error line). -/
theorem c1_var_init_inverted :
    codegen 9 (Expr.varDecl [("x", some (.num 1))] (.varRef "x")) cgInit =
      CGRes.ret none cgInit := rfl

/-! ### Claim C2: unbound Variable (code bug: missing return before CreateLoad) -/

/-- Claim C2.  The spec says an unbound Variable name makes the
generator fail with a single Error line and a null value, emitting no
load.  The code logs the line but does not return (line 192 lacks the
return), then calls A->getAllocatedType() on the null AllocaInst: the
process dies instead of abandoning the top-level item.  The model shows
the fatal outcome with exactly one Error line and no emitted
instruction. -/
theorem c2_unbound_variable_crash :
    codegen 5 (Expr.varRef "y") cgInit =
      CGRes.fatal "null AllocaInst dereferenced in CreateLoad"
        ⟨[("y", none)], 0, [], ["Error: Unknown variable name"], [], []⟩ := rfl

/-! ### Claim C3: operator-table positivity (corrected) -/

/-- Claim C3 counterexample.  Parsing the input 4! from the seeded table
reaches GetTokPrecedence with CurTok = the exclamation mark; the
std::map::operator[] read at line 569 inserts the entry with
value-initialized precedence 0, so afterwards the table holds a present,
non-positive entry, refuting the claimed invariant that every present
entry is positive. -/
theorem c3_counterexample :
    ¬ (∀ (c : Char) (v : Int), alookup c ((parseExpression 10 pstBang).2).tbl = some v → 0 < v) := by
  intro h
  exact absurd (h '!' 0 rfl) (by decide)

theorem getTokPrecedence_fst_assocSet_zero (tbl : List (Char × Int)) (c : Char)
    (h : alookup c tbl = none) (t2 : Token) :
    (getTokPrecedence t2 (assocSet c 0 tbl)).1 = (getTokPrecedence t2 tbl).1 := by
  cases t2 with
  | op c2 =>
    by_cases hc : c2 = c
    · subst hc
      simp only [getTokPrecedence, mapIndex, h, alookup_assocSet_self]
    · cases h2 : alookup c2 tbl with
      | none => simp [getTokPrecedence, mapIndex, alookup_assocSet_ne c c2 0 tbl hc, h2]
      | some v =>
        simp only [getTokPrecedence, mapIndex, alookup_assocSet_ne c c2 0 tbl hc, h2]
        split <;> rfl
  | teof => rfl
  | kdef => rfl
  | kext => rfl
  | kif => rfl
  | kthen => rfl
  | kelse => rfl
  | kfor => rfl
  | kin => rfl
  | kbinary => rfl
  | kunary => rfl
  | kvar => rfl
  | identifier s => rfl
  | number v => rfl

theorem getTokPrecedence_fst_stable (tbl : List (Char × Int)) (t1 t2 : Token) :
    (getTokPrecedence t2 (getTokPrecedence t1 tbl).2).1 = (getTokPrecedence t2 tbl).1 := by
  cases t1 with
  | op c =>
    cases h : alookup c tbl with
    | some v =>
      have hsnd : (getTokPrecedence (.op c) tbl).2 = tbl := by
        simp only [getTokPrecedence, mapIndex, h]
        split <;> rfl
      rw [hsnd]
    | none =>
      have hsnd : (getTokPrecedence (.op c) tbl).2 = assocSet c 0 tbl := by
        simp only [getTokPrecedence, mapIndex, h]
        norm_num
      rw [hsnd]
      exact getTokPrecedence_fst_assocSet_zero tbl c h t2
  | teof => rfl
  | kdef => rfl
  | kext => rfl
  | kif => rfl
  | kthen => rfl
  | kelse => rfl
  | kfor => rfl
  | kin => rfl
  | kbinary => rfl
  | kunary => rfl
  | kvar => rfl
  | identifier s => rfl
  | number v => rfl

theorem assocSet_nonneg (tbl : List (Char × Int)) (c : Char) (v : Int)
    (hv : 0 ≤ v) (h : ∀ p ∈ tbl, 0 ≤ p.2) : ∀ p ∈ assocSet c v tbl, 0 ≤ p.2 := by
  intro p hp
  rcases mem_assocSet c v tbl p hp with h2 | h2
  · subst h2
    exact hv
  · exact h p h2

/-- Claim C3 amended.  Every entry installed by the seeding in main is
positive; the precedence lookup during parsing can insert a zero entry
for a queried character (std::map::operator[]), but that entry is
semantically inert: it never changes any later precedence answer, and
GetTokPrecedence reports non-positive entries exactly like absent ones;
every table operation keeps all entries non-negative provided operator
installation stores a non-negative precedence. -/
theorem c3_table_amended :
    (∀ p ∈ seededTable, 0 < p.2) ∧
    (∀ (tbl : List (Char × Int)) (t1 t2 : Token),
      (getTokPrecedence t2 (getTokPrecedence t1 tbl).2).1 = (getTokPrecedence t2 tbl).1) ∧
    (∀ (tbl : List (Char × Int)) (t1 : Token), (∀ p ∈ tbl, 0 ≤ p.2) →
      ∀ p ∈ (getTokPrecedence t1 tbl).2, 0 ≤ p.2) ∧
    (∀ (tbl : List (Char × Int)) (c : Char) (v : Int), 0 ≤ v → (∀ p ∈ tbl, 0 ≤ p.2) →
      ∀ p ∈ assocSet c v tbl, 0 ≤ p.2) := by
  refine ⟨by decide, getTokPrecedence_fst_stable, ?_, assocSet_nonneg⟩
  intro tbl t1 h p hp
  cases t1 with
  | op c =>
    cases h2 : alookup c tbl with
    | some v =>
      have hsnd : (getTokPrecedence (.op c) tbl).2 = tbl := by
        simp only [getTokPrecedence, mapIndex, h2]
        split <;> rfl
      rw [hsnd] at hp
      exact h p hp
    | none =>
      have hsnd : (getTokPrecedence (.op c) tbl).2 = assocSet c 0 tbl := by
        simp only [getTokPrecedence, mapIndex, h2]
        norm_num
      rw [hsnd] at hp
      exact assocSet_nonneg tbl c 0 le_rfl h p hp
  | teof => exact h p hp
  | kdef => exact h p hp
  | kext => exact h p hp
  | kif => exact h p hp
  | kthen => exact h p hp
  | kelse => exact h p hp
  | kfor => exact h p hp
  | kin => exact h p hp
  | kbinary => exact h p hp
  | kunary => exact h p hp
  | kvar => exact h p hp
  | identifier s => exact h p hp
  | number v => exact h p hp

/-- Witness for the amended C3 theorem at concrete inputs: the seeded
entry for the equality sign is positive, and after the lookup that
inserts the zero entry for the exclamation mark the table is still
non-negative at that entry. -/
theorem c3_table_amended_witness : (0 : Int) < 2 ∧ (0 : Int) ≤ 0 := by
  constructor
  · exact c3_table_amended.1 ('=', 2) (by decide)
  · exact c3_table_amended.2.2.1 seededTable (.op '!') (by decide) ('!', 0) (by decide)

/-! ### Claim C4: binary-operator precedence install and rollback (confirmed) -/

/-- Claim C4.  For a binary-operator definition (two-parameter operator
prototype), whose name is not already a function of the current module
and whose table has distinct keys (both invariants of the real
std::map-backed program): if FunctionAST::codegen succeeds the operator
table afterwards maps the operator character to the precedence of
the prototype (line 899 installed it before the body was lowered, and
nothing on the success path removes it); if it fails, the
entry of the operator is absent afterwards (line 923) and no function with the id of the
partially built one remains in the module (line 920). -/
theorem c4_binop_table (P : Proto) (body : Expr) (fuel : Nat) (tbl : List (Char × Int))
    (s : CGState) (hop : P.isOperator = true) (hargs : P.args.length = 2)
    (hnodup : keysNodup tbl) (hfresh : ∀ g ∈ s.moduleFns, g.name ≠ P.name) :
    (∀ tf tbl2 s2, functionCodegen fuel P body tbl s = .ok tf tbl2 s2 →
      alookup P.opChar tbl2 = some P.precedence) ∧
    (∀ tbl2 s2, functionCodegen fuel P body tbl s = .err tbl2 s2 →
      alookup P.opChar tbl2 = none ∧ ∀ g ∈ s2.moduleFns, g.fid ≠ s.nextId) := by
  have hbin : P.isBinaryOp = true := by
    simp [Proto.isBinaryOp, hop, hargs]
  have hfind : s.moduleFns.find? (fun f => f.name == P.name) = none := by
    apply List.find?_eq_none.mpr
    intro x hx
    simpa using hfresh x hx
  have hall : s.moduleFns.all (fun f => f.name != P.name) = true := by
    rw [List.all_eq_true]
    intro x hx
    simpa using hfresh x hx
  constructor
  · intro tf tbl2 s2 hok
    simp only [functionCodegen, getFunction, hfind, alookup_assocSet_self, protoCodegen,
      freshName, hall, if_true, hbin] at hok
    split at hok
    · exact FnRes.noConfusion hok
    · injection hok with h1 h2 h3
      rw [← h2]
      exact alookup_assocSet_self P.opChar P.precedence tbl
    · exact FnRes.noConfusion hok
  · intro tbl2 s2 herr
    simp only [functionCodegen, getFunction, hfind, alookup_assocSet_self, protoCodegen,
      freshName, hall, if_true, hbin] at herr
    split at herr
    · exact FnRes.noConfusion herr
    · exact FnRes.noConfusion herr
    · injection herr with h2 h3
      constructor
      · rw [← h2]
        exact alookup_assocErase_assocSet P.opChar P.precedence tbl hnodup
      · rw [← h3]
        intro g hg
        have hm := List.mem_filter.mp hg
        simpa using hm.2

/-- Witness for C4 at the concrete operator definition binary@ with
precedence 5: the successful body (the constant 1) leaves the entry
installed, the failing body (a call to an unknown function) leaves the
table without the entry. -/
theorem c4_binop_table_witness :
    alookup '@' [('=', 2), ('<', 10), ('+', 20), ('-', 20), ('*', 40), ('@', 5)] =
      some (5 : Int) ∧
    alookup '@' seededTable = none := by
  have h := c4_binop_table ⟨"binary@", ["x", "y"], true, 5⟩ (.num 1) 9 seededTable cgInit rfl
    rfl (by unfold keysNodup; decide) (by intro g hg; simp [cgInit] at hg)
  have h2 := c4_binop_table ⟨"binary@", ["x", "y"], true, 5⟩ (.callE "nosuch" []) 9 seededTable
    cgInit rfl rfl (by unfold keysNodup; decide) (by intro g hg; simp [cgInit] at hg)
  exact ⟨h.1 _ _ _ rfl, (h2.2 _ _ rfl).1⟩

/-! ### Claim C5: extern re-declaration (corrected) -/

/-- Claim C5 counterexample.  Re-declaring extern f with a different
arity is NOT rejected: parsing accepts both prototypes, HandleExtern
emits no diagnostic (the error stream stays empty) and overwrites the
registry entry with the new two-parameter prototype, so the registry
does change beyond the first successful declaration. -/
theorem c5_counterexample :
    (parsePrototype ⟨[.identifier "f", .op '(', .identifier "x", .op ')'],
      seededTable, []⟩).1 = some protoF1 ∧
    (parsePrototype ⟨[.identifier "f", .op '(', .identifier "x", .identifier "y", .op ')'],
      seededTable, []⟩).1 = some protoF2 ∧
    alookup "f" (handleExt protoF2 (handleExt protoF1 cgInit)).protos = some protoF2 ∧
    (handleExt protoF2 (handleExt protoF1 cgInit)).errors = [] ∧
    protoF2 ≠ protoF1 :=
  ⟨rfl, rfl, rfl, rfl, by decide⟩

/-- Claim C5 amended.  HandleExtern always accepts a re-declaration:
the registry entry is overwritten with the newest prototype and no
diagnostic is emitted at declaration time; an arity mismatch is only
diagnosed at a call site, where CallExprAST::codegen rejects a call
whose argument count differs from the parameter count of the resolved callee
with one Error line and a null result. -/
theorem c5_ext_amended :
    (∀ (p : Proto) (s : CGState),
      alookup p.name (handleExt p s).protos = some p ∧ (handleExt p s).errors = s.errors) ∧
    (∀ (f : Nat) (nm : String) (args : List Expr) (s s3 : CGState) (fd : FnDecl),
      getFunction s nm = (some fd, s3) → fd.argCount ≠ args.length →
      codegen (f+1) (.callE nm args) s =
        .ret none (s3.logErr "Incorrect # arguments passed")) := by
  constructor
  · intro p s
    constructor
    · simp only [handleExt, protoCodegen]
      exact alookup_assocSet_self p.name p _
    · rfl
  · intro f nm args s s3 fd hg hne
    simp only [codegen, hg, if_pos hne]

/-- Witness for the amended C5 theorem: after extern g(x), a call
g(1, 2) is rejected with the arity diagnostic. -/
theorem c5_ext_amended_witness :
    alookup "g" (handleExt ⟨"g", ["x"], false, 30⟩ cgInit).protos =
      some ⟨"g", ["x"], false, 30⟩ ∧
    (codegen 1 (Expr.callE "g" [.num 1, .num 2])
        (handleExt ⟨"g", ["x"], false, 30⟩ cgInit)).stateOf.errors =
      ["Error: Incorrect # arguments passed"] := by
  constructor
  · exact (c5_ext_amended.1 ⟨"g", ["x"], false, 30⟩ cgInit).1
  · have h := c5_ext_amended.2 0 "g" [.num 1, .num 2]
      (handleExt ⟨"g", ["x"], false, 30⟩ cgInit) _ _ rfl (by decide)
    rw [h]
    rfl

/-! ### Claim C6: the ParseBinOpRHS recursion (corrected) -/

/-- Claim C6 counterexample.  The claim says the subroutine recurses
with minimum precedence minPrec+1; the source (line 731) recurses with
TokPrec+1, the precedence of the operator just consumed.  On the input
a + b * c < d the two algorithms produce different trees (the source
yields the correct (a+(b*c)) < d, the described one yields
a + ((b*c) < d)), so the description in the claim is false of the code. -/
theorem c6_counterexample :
    (parseExpression 30 pstC6).1 ≠ (parseExpressionSpec 30 pstC6).1 := by
  have h1 : (parseExpression 30 pstC6).1 =
      some (.binE '<' (.binE '+' (.varRef "a") (.binE '*' (.varRef "b") (.varRef "c")))
        (.varRef "d")) := rfl
  have h2 : (parseExpressionSpec 30 pstC6).1 =
      some (.binE '+' (.varRef "a") (.binE '<' (.binE '*' (.varRef "b") (.varRef "c"))
        (.varRef "d"))) := rfl
  rw [h1, h2]
  intro h
  injection h with h3
  injection h3 with ho hl hr
  exact absurd ho (by decide)

/-- Claim C6 amended.  parseBinOpRHS loops while the precedence of the current
token is at least minPrec, consumes the operator, parses a unary
operand, recurses with TokPrec+1 (the precedence of the consumed operator
plus one, not minPrec+1) when the following operator binds tighter,
folds into a Binary node, and returns the accumulated left-hand side as
soon as the next precedence drops below minPrec; on a + b * c < d this
yields the tree (a + (b * c)) < d. -/
theorem c6_binoprhs_amended :
    (∀ (f : Nat) (prec : Int) (lhs : Expr) (st : PState),
      (getTokPrecedence (curT st.toks) st.tbl).1 < prec →
      parseBinOpRHS (f+1) prec lhs st =
        (some lhs, { st with tbl := (getTokPrecedence (curT st.toks) st.tbl).2 })) ∧
    (parseExpression 30 pstC6).1 =
      some (.binE '<' (.binE '+' (.varRef "a") (.binE '*' (.varRef "b") (.varRef "c")))
        (.varRef "d")) := by
  constructor
  · intro f prec lhs st h
    simp only [parseBinOpRHS, if_pos h]
  · rfl

/-- Witness for the amended C6 theorem: at end-of-input the precedence
is -1 < 0, so the accumulated expression is returned unchanged. -/
theorem c6_binoprhs_amended_witness :
    parseBinOpRHS 1 0 (Expr.num 7) ⟨[], seededTable, []⟩ =
      (some (Expr.num 7), ⟨[], seededTable, []⟩) := by
  have h := c6_binoprhs_amended.1 0 0 (Expr.num 7) ⟨[], seededTable, []⟩ (by decide)
  rw [h]
  rfl

/-! ### Claim C7: the For loop runs five times, not four (corrected) -/

/-- Claim C7 counterexample.  The loop emitted for
for i = 1, i<5 in printd(i) is a do-while whose end condition is
evaluated before the increment: the body runs at i = 1, 2, 3, 4 and
once more at i = 5, i.e. five times, not the four the claim states. -/
theorem c7_counterexample :
    (forLoopExec (fun i => decide (i < (5 : ℚ))) 1 10 1 0).map Prod.fst ≠ some 4 := by
  norm_num [forLoopExec]

/-- Claim C7 amended.  The parser turns the input into the expected For
node; executing its emitted loop runs the body exactly five times (once
at the start value and once more for each time the end condition held)
and produces 0.0; and every successful For codegen returns the constant
0.0 regardless of its body. -/
theorem c7_for_amended :
    ((parseExpression 30 pstC7).1 =
      some (.forE "i" (.num 1) (.binE '<' (.varRef "i") (.num 5)) none
        (.callE "printd" [.varRef "i"]))) ∧
    (forLoopExec (fun i => decide (i < (5 : ℚ))) 1 10 1 0 = some (5, 0)) ∧
    (∀ (f : Nat) (vn : String) (st0 en : Expr) (stp : Option Expr) (bd : Expr)
        (s : CGState) (v : Val) (s2 : CGState),
      codegen f (.forE vn st0 en stp bd) s = .ret (some v) s2 → v = .constFP 0) := by
  refine ⟨rfl, by norm_num [forLoopExec], ?_⟩
  intro f vn st0 en stp bd s v s2 h
  cases f with
  | zero => simp [codegen] at h
  | succ f =>
    simp only [codegen] at h
    repeat' split at h
    all_goals simp_all

/-- Witness for the amended C7 theorem at a concrete successful For
codegen. -/
theorem c7_for_amended_witness :
    (codegen 3 (Expr.forE "i" (.num 1) (.num 1) none (.num 1)) cgInit).valOf =
      some (Val.constFP 0) ∧ Val.constFP 0 = Val.constFP 0 := by
  refine ⟨rfl, ?_⟩
  exact c7_for_amended.2.2 3 "i" (.num 1) (.num 1) none (.num 1) cgInit _ _ rfl

/-! ### Claim C8: operator prototypes (confirmed) -/

theorem collectArgsAux_calc (args : List String) (t : Token) (r : List Token)
    (acc : List String) (ht : ∀ s, t ≠ .identifier s) :
    collectArgsAux (args.map Token.identifier ++ t :: r) acc = (acc.reverse ++ args, t :: r) := by
  induction args generalizing acc with
  | nil =>
    cases t with
    | identifier s => exact absurd rfl (ht s)
    | teof => simp [collectArgsAux]
    | kdef => simp [collectArgsAux]
    | kext => simp [collectArgsAux]
    | kif => simp [collectArgsAux]
    | kthen => simp [collectArgsAux]
    | kelse => simp [collectArgsAux]
    | kfor => simp [collectArgsAux]
    | kin => simp [collectArgsAux]
    | kbinary => simp [collectArgsAux]
    | kunary => simp [collectArgsAux]
    | kvar => simp [collectArgsAux]
    | number v => simp [collectArgsAux]
    | op c => simp [collectArgsAux]
  | cons a as ih =>
    simp only [List.map_cons, List.cons_append, collectArgsAux, List.append_eq]
    rw [ih (a :: acc)]
    simp

/-- Claim C8.  A binary-operator prototype takes exactly two parameters
and an optional precedence literal: the literals 0 and 101 are rejected
with a parse error; an omitted literal defaults to precedence 30; and
for any parameter list whose length differs from the arity of the operator
(2 for binary, 1 for unary) the prototype is rejected with the
operand-count diagnostic. -/
theorem c8_operator_proto :
    ((parsePrototype ⟨[.kbinary, .op '@', .number 0, .op '(', .identifier "x",
        .identifier "y", .op ')'], seededTable, []⟩).1 = none ∧
      (parsePrototype ⟨[.kbinary, .op '@', .number 0, .op '(', .identifier "x",
        .identifier "y", .op ')'], seededTable, []⟩).2.errs =
        ["Error: Invalid precedence: must be 1..100"]) ∧
    ((parsePrototype ⟨[.kbinary, .op '@', .number 101, .op '(', .identifier "x",
        .identifier "y", .op ')'], seededTable, []⟩).1 = none ∧
      (parsePrototype ⟨[.kbinary, .op '@', .number 101, .op '(', .identifier "x",
        .identifier "y", .op ')'], seededTable, []⟩).2.errs =
        ["Error: Invalid precedence: must be 1..100"]) ∧
    ((parsePrototype ⟨[.kbinary, .op '@', .op '(', .identifier "x", .identifier "y",
        .op ')'], seededTable, []⟩).1 = some ⟨"binary@", ["x", "y"], true, 30⟩) ∧
    (∀ (args : List String) (rest : List Token) (tbl : List (Char × Int)),
      args.length ≠ 2 →
      parsePrototype ⟨[Token.kbinary, Token.op '@', Token.op '('] ++
          args.map Token.identifier ++ Token.op ')' :: rest, tbl, []⟩ =
        (none, ⟨rest, tbl, ["Error: Invalid number of operands for operator"]⟩)) ∧
    (∀ (args : List String) (rest : List Token) (tbl : List (Char × Int)),
      args.length ≠ 1 →
      parsePrototype ⟨[Token.kunary, Token.op '@', Token.op '('] ++
          args.map Token.identifier ++ Token.op ')' :: rest, tbl, []⟩ =
        (none, ⟨rest, tbl, ["Error: Invalid number of operands for operator"]⟩)) := by
  refine ⟨⟨rfl, rfl⟩, ⟨rfl, rfl⟩, rfl, ?_, ?_⟩
  · intro args rest tbl hne
    simp only [List.cons_append, List.nil_append, parsePrototype, curT, PState.adv,
      List.tail_cons, parseProtoTail,
      collectArgsAux_calc args (.op ')') rest [] (fun s => by simp)]
    simp [PState.logErr, hne]
  · intro args rest tbl hne
    simp only [List.cons_append, List.nil_append, parsePrototype, curT, PState.adv,
      List.tail_cons, parseProtoTail,
      collectArgsAux_calc args (.op ')') rest [] (fun s => by simp)]
    simp [PState.logErr, hne]


/-- Witness for C8 at concrete arity-mismatched prototypes: a
one-parameter binary operator and a two-parameter unary operator are
both rejected. -/
theorem c8_operator_proto_witness :
    parsePrototype ⟨[.kbinary, .op '@', .op '(', .identifier "x", .op ')'],
        seededTable, []⟩ =
      (none, ⟨[], seededTable, ["Error: Invalid number of operands for operator"]⟩) ∧
    parsePrototype ⟨[.kunary, .op '@', .op '(', .identifier "x", .identifier "y",
        .op ')'], seededTable, []⟩ =
      (none, ⟨[], seededTable, ["Error: Invalid number of operands for operator"]⟩) := by
  constructor
  · exact c8_operator_proto.2.2.2.1 ["x"] [] seededTable (by decide)
  · exact c8_operator_proto.2.2.2.2 ["x", "y"] [] seededTable (by decide)

theorem stripCW_cons_space (c : Char) (l : List Char) (h : cIsSpace c = true) :
    stripCW (c :: l) = stripCW l := by
  rw [stripCW]
  simp [h]

theorem stripCW_append_spaces (ws l : List Char) (h : ∀ c ∈ ws, cIsSpace c = true) :
    stripCW (ws ++ l) = stripCW l := by
  induction ws with
  | nil => rfl
  | cons w ws ih =>
    rw [List.cons_append, stripCW_cons_space w (ws ++ l) (h w (by simp))]
    exact ih fun c hc => h c (by simp [hc])

theorem nextTok_congr (l1 l2 : List Char) (h : stripCW l1 = stripCW l2) :
    nextTok l1 = nextTok l2 := by
  simp only [nextTok, h]

theorem skipComment_through (cs rest : List Char) (h : ∀ c ∈ cs, ¬(c = '\n' ∨ c = '\r')) :
    skipComment (cs ++ '\n' :: rest) = '\n' :: rest := by
  induction cs with
  | nil => simp [skipComment]
  | cons c cs ih =>
    rw [List.cons_append, skipComment]
    rw [if_neg (h c (by simp))]
    exact ih fun x hx => h x (by simp [hx])

theorem skipComment_all (cs : List Char) (h : ∀ c ∈ cs, ¬(c = '\n' ∨ c = '\r')) :
    skipComment cs = [] := by
  induction cs with
  | nil => rfl
  | cons c cs ih =>
    rw [skipComment, if_neg (h c (by simp))]
    exact ih fun x hx => h x (by simp [hx])

theorem stripCW_comment (cs rest : List Char) (h : ∀ c ∈ cs, ¬(c = '\n' ∨ c = '\r')) :
    stripCW ('#' :: (cs ++ '\n' :: rest)) = stripCW rest := by
  rw [stripCW]
  simp only [show cIsSpace '#' = false from rfl, Bool.false_eq_true, if_false,
    if_pos rfl, skipComment_through cs rest h]
  exact stripCW_cons_space '\n' rest rfl

theorem readIdentAux_calc (cs rest : List Char) (hcs : ∀ x ∈ cs, x.isAlphanum = true)
    (hrest : ∀ x, rest.head? = some x → x.isAlphanum = false) :
    readIdentAux (cs ++ rest) = (cs, rest) := by
  induction cs with
  | nil =>
    cases rest with
    | nil => rfl
    | cons x r => simp [readIdentAux, hrest x rfl]
  | cons c cs ih =>
    simp only [List.cons_append, readIdentAux, hcs c (by simp), if_pos, List.append_eq]
    rw [ih fun x hx => hcs x (by simp [hx])]

theorem isSpace_cases (c : Char) (h : cIsSpace c = true) :
    c = ' ' ∨ c = '\t' ∨ c = '\n' ∨ c = '\x0b' ∨ c = '\x0c' ∨ c = '\r' := by
  simp only [cIsSpace, Bool.or_eq_true, decide_eq_true_eq] at h
  tauto

theorem isAlpha_not_space (c : Char) (h : c.isAlpha = true) : cIsSpace c = false := by
  rcases Bool.eq_false_or_eq_true (cIsSpace c) with h2 | h2
  · rcases isSpace_cases c h2 with rfl | rfl | rfl | rfl | rfl | rfl <;> exact absurd h (by decide)
  · exact h2

theorem isAlpha_ne_hash (c : Char) (h : c.isAlpha = true) : c ≠ '#' := by
  intro hc
  subst hc
  exact absurd h (by decide)

theorem keywordOf_tident_iff (s : String) : keywordOf s = .tident s ↔ s ∉ reservedWords := by
  unfold keywordOf reservedWords
  split_ifs with h1 h2 h3 h4 h5 h6 h7 h8 h9 h10 <;> simp_all

/-- Claim C9.  The lexer emits no token for whitespace or comments: a
run of whitespace before the input changes nothing, a comment from the
hash character through the next newline is skipped and scanning
continues (a comment reaching end of stream yields the end token); a
maximal run matching letter-then-alphanumerics is consumed as one
token, a keyword exactly when it equals one of the reserved words and
an identifier otherwise; any other non-numeric, non-space, non-comment
character becomes a single-character operator token.  The token stream
is a pure function of the consumed characters by construction: nextTok
is a function of the stream alone. -/
theorem c9_lexer :
    (∀ (ws l : List Char), (∀ c ∈ ws, cIsSpace c = true) → nextTok (ws ++ l) = nextTok l) ∧
    (∀ (cs rest : List Char), (∀ c ∈ cs, ¬(c = '\n' ∨ c = '\r')) →
      nextTok ('#' :: (cs ++ '\n' :: rest)) = nextTok rest ∧
      nextTok ('#' :: cs) = (.teof, [])) ∧
    (∀ (c : Char) (cs rest : List Char), c.isAlpha = true → (∀ x ∈ cs, x.isAlphanum = true) →
      (∀ x, rest.head? = some x → x.isAlphanum = false) →
      nextTok (c :: (cs ++ rest)) = (keywordOf (String.mk (c :: cs)), rest)) ∧
    (∀ s : String, keywordOf s = .tident s ↔ s ∉ reservedWords) ∧
    (∀ (c : Char) (r : List Char), cIsSpace c = false → c.isAlpha = false →
      c.isDigit = false → c ≠ '.' → c ≠ '#' → nextTok (c :: r) = (.top c, r)) := by
  refine ⟨?_, ?_, ?_, keywordOf_tident_iff, ?_⟩
  · intro ws l h
    exact nextTok_congr _ _ (stripCW_append_spaces ws l h)
  · intro cs rest h
    constructor
    · exact nextTok_congr _ _ (stripCW_comment cs rest h)
    · have h1 : stripCW ('#' :: cs) = [] := by
        rw [stripCW, if_neg (by decide), if_pos rfl, skipComment_all cs h, stripCW]
      simp only [nextTok, h1]
  · intro c cs rest hc hcs hrest
    have h1 : stripCW (c :: (cs ++ rest)) = c :: (cs ++ rest) := by
      rw [stripCW]
      rw [if_neg (by simp [isAlpha_not_space c hc]), if_neg (by simp [isAlpha_ne_hash c hc])]
    simp only [nextTok, h1, hc, if_pos, readIdentAux_calc cs rest hcs hrest]
  · intro c r hsp hal hdg hdot hhash
    have h1 : stripCW (c :: r) = c :: r := by
      rw [stripCW]
      rw [if_neg (by simp [hsp]), if_neg (by simp [hhash])]
    simp only [nextTok, h1, hal, hdg, hdot, Bool.false_eq_true, if_false]
    simp [hdot]

theorem c9_lexer_witness :
    nextTok [' ', 'x'] = nextTok ['x'] ∧
    nextTok ['#', 'h', '\n', 'z'] = nextTok ['z'] ∧
    nextTok ['d', 'e', 'f', '+'] = (.tdef, ['+']) ∧
    ("zzz" ∉ reservedWords) ∧
    nextTok ['+', 'q'] = (.top '+', ['q']) := by
  refine ⟨?_, ?_, ?_, ?_, ?_⟩
  · exact c9_lexer.1 [' '] ['x'] (by decide)
  · exact (c9_lexer.2.1 ['h'] ['z'] (by decide)).1
  · exact c9_lexer.2.2.1 'd' ['e', 'f'] ['+'] (by decide) (by decide)
      (by intro x hx; simp at hx; subst hx; decide)
  · exact (c9_lexer.2.2.2.1 "zzz").mp rfl
  · exact c9_lexer.2.2.2.2 '+' ['q'] (by decide) (by decide) (by decide) (by decide) (by decide)

theorem getFunction_none_eq (s : CGState) (nm : String) (s3 : CGState)
    (h : getFunction s nm = (none, s3)) : s3 = s := by
  unfold getFunction at h
  cases h1 : s.moduleFns.find? (fun f => f.name == nm) with
  | some f => simp [h1] at h
  | none =>
    simp only [h1] at h
    cases h2 : alookup nm s.protos with
    | some p => simp [h2] at h
    | none =>
      simp only [h2] at h
      injection h with ha hb
      exact hb.symm

/-- Claim C10.  Lowering a Binary expression whose operator is none of
the five built-in ones emits a two-argument call to the function named
binary-op, resolved through the current module or the prototype
registry; when that name is unresolvable the failure is the assert at
line 267, which aborts the process without an Error line and without a
null result (the error log is unchanged). -/
theorem c10_user_binop (c : Char) (l r : Expr) (f : Nat) (s s1 s2 : CGState) (lv rv : Val)
    (hc1 : c ≠ '=') (hc2 : c ≠ '+') (hc3 : c ≠ '-') (hc4 : c ≠ '*') (hc5 : c ≠ '<')
    (hl : codegen f l s = .ret (some lv) s1)
    (hr : codegen f r s1 = .ret (some rv) s2) :
    (∀ (fd : FnDecl) (s3 : CGState),
      getFunction s2 ("binary" ++ c.toString) = (some fd, s3) →
      codegen (f+1) (.binE c l r) s =
        .ret (some (.instr (freshId s3).1))
          (((freshId s3).2).emit (.callI (freshId s3).1 fd.name [lv, rv]))) ∧
    (∀ s3 : CGState,
      getFunction s2 ("binary" ++ c.toString) = (none, s3) →
      codegen (f+1) (.binE c l r) s =
        .fatal "assertion failed: binary operator not found!" s3 ∧ s3.errors = s2.errors) := by
  constructor
  · intro fd s3 hg
    simp only [codegen, if_neg hc1, hl, hr, if_neg hc2, if_neg hc3, if_neg hc4, if_neg hc5, hg]
  · intro s3 hg
    constructor
    · simp only [codegen, if_neg hc1, hl, hr, if_neg hc2, if_neg hc3, if_neg hc4, if_neg hc5, hg]
    · rw [getFunction_none_eq s2 _ s3 hg]

theorem c10_user_binop_witness :
    (codegen 2 (Expr.binE '!' (.num 1) (.num 2)) cgInit).isFatal = true ∧
    (codegen 2 (Expr.binE '!' (.num 1) (.num 2))
        (handleExt ⟨"binary!", ["x", "y"], true, 5⟩ cgInit)).valOf = some (Val.instr 1) := by
  constructor
  · have h := (c10_user_binop '!' (.num 1) (.num 2) 1 cgInit cgInit cgInit (.constFP 1)
      (.constFP 2) (by decide) (by decide) (by decide) (by decide) (by decide) rfl rfl).2
      _ rfl
    rw [h.1]
    rfl
  · have h := (c10_user_binop '!' (.num 1) (.num 2) 1
      (handleExt ⟨"binary!", ["x", "y"], true, 5⟩ cgInit)
      (handleExt ⟨"binary!", ["x", "y"], true, 5⟩ cgInit)
      (handleExt ⟨"binary!", ["x", "y"], true, 5⟩ cgInit) (.constFP 1) (.constFP 2)
      (by decide) (by decide) (by decide) (by decide) (by decide) rfl rfl).1 _ _ rfl
    rw [h]
    rfl

end Kls
